import Mathlib

/-!
# editml-clean: the orchestration pipeline of `main.go`

A shallow embedding of `run` and `main` from `src/main.go`.

* The markup engine (package `editml-go`) is an external collaborator; its two
  operations `Parse` and `TransformCleanView` are a parameter (`Engine`).
* The operating system is a parameter (`World`): what reading standard input,
  opening, reading and creating files and writing the output return.
* `main` is a function from the parsed flags to a `Result`: the list of
  observable events in program order and the process exit status.
  `Flags` is the state of the flag variables after `flag.Parse()` has returned.
-/

namespace EditmlClean

/-! ## Data model -/

/-- Modelled from the spec: the `Severity` enumeration of the markup engine package,
whose declaration is outside this repository; section 3 of the spec gives its two
values, Warning and Error. -/
inductive Severity where
  | SeverityWarning
  | SeverityError
deriving DecidableEq, Repr

/-- Modelled from the spec: the `Issue` value type of the markup engine package, whose
declaration is outside this repository; section 3 of the spec gives the fields
`Severity`, `Message`, `Line` and `Column`. -/
structure Issue where
  Severity : Severity
  Message : String
  Line : Int
  Column : Int
deriving DecidableEq, Repr

/-- The markup engine consumed by `run`: `editml.Parse` and `editml.TransformCleanView`.
`Node` is the engine's node type. -/
structure Engine (Node : Type) where
  Parse : String → List Node × List Issue
  TransformCleanView : List Node → String × List Issue

/-- The constant `AppVersion` of `main.go`. -/
def AppVersion : String := "1.0.0"

/-- The function `run` of `main.go`: parse, transform the parse phase's nodes, append the
transform issues to the parse issues. -/
def run {Node : Type} (E : Engine Node) (inputText : String) : String × List Issue :=
  let (nodes, parseIssues) := E.Parse inputText
  let (cleanText, transformIssues) := E.TransformCleanView nodes
  let allIssues := parseIssues ++ transformIssues
  (cleanText, allIssues)

/-! ## Process model -/

/-- The flag variables of `main` after `flag.Parse()`, and the positional arguments. -/
structure Flags where
  versionFlag : Bool
  outputFlag : String
  outputFlagLong : String
  debugFlag : Bool
  strictFlag : Bool
  args : List String

/-- Where `outputWriter` points: `os.Stdout` or the file made by `os.Create`. -/
inductive Dest where
  | stdout
  | file (path : String)
deriving DecidableEq, Repr

/-- The operating system as seen by `main`. An error is `some msg` (or `Except.error msg`),
success is `none` (or `Except.ok bytes`). -/
structure World where
  /-- The result of `io.ReadAll(os.Stdin)`. -/
  stdinRead : Except String String
  /-- The error of `os.Open(path)`. -/
  openFile : String → Option String
  /-- The result of `io.ReadAll(file)` on the opened input file. -/
  readFile : String → Except String String
  /-- The error of `os.Create(path)`. -/
  createFile : String → Option String
  /-- The error of `fmt.Fprintln(outputWriter, text)` for the bytes handed to the writer. -/
  writeOutput : Dest → String → Option String

/-- The observable actions of `main`, in program order. Calls that can fail carry the
error they returned. `logFatal` is `log.Fatalf`: its message goes to standard error
(after the logger's time stamp, which is left out) and the process exits with status 1. -/
inductive Event where
  | stdoutWrite (bytes : String)
  | openInput (path : String) (err : Option String)
  | readInput (err : Option String)
  | callRun (inputText : String)
  | stderrWrite (bytes : String)
  | createOutput (path : String) (err : Option String)
  | outputWrite (dest : Dest) (bytes : String) (err : Option String)
  | closeFile (path : String)
  | logFatal (msg : String)
deriving DecidableEq, Repr

/-- What one run of `main` does: its events and the exit status of the process. -/
structure Result where
  trace : List Event
  status : Nat
deriving DecidableEq, Repr

/-- Section 2 of `main`, input handling. Returns the events and, unless a fatal error
ended the process, the input text and the deferred `Close` of the input file. -/
def inputHandling (W : World) (F : Flags) : List Event × Option (String × List Event) :=
  match F.args with
  | [] =>
    match W.stdinRead with
    | Except.error err =>
      ([Event.readInput (some err), Event.logFatal ("Fatal: could not read input: " ++ err)], none)
    | Except.ok inputBytes => ([Event.readInput none], some (inputBytes, []))
  | inputFilename :: _ =>
    match W.openFile inputFilename with
    | some err =>
      ([Event.openInput inputFilename (some err),
        Event.logFatal ("Fatal: could not open input file " ++ inputFilename ++ ": " ++ err)], none)
    | none =>
      match W.readFile inputFilename with
      | Except.error err =>
        ([Event.openInput inputFilename none, Event.readInput (some err),
          Event.logFatal ("Fatal: could not read input: " ++ err)], none)
      | Except.ok inputBytes =>
        ([Event.openInput inputFilename none, Event.readInput none],
          some (inputBytes, [Event.closeFile inputFilename]))

/-- The label chosen inside the debug branch of the issue loop. -/
def severityStr (issue : Issue) : String :=
  if issue.Severity = Severity.SeverityError then "Error" else "Warning"

/-- The bytes of `fmt.Fprintf(os.Stderr, "[%s] %s (L%d:C%d)\n", ...)` for one issue. -/
def issueLine (issue : Issue) : String :=
  "[" ++ severityStr issue ++ "] " ++ issue.Message ++
    " (L" ++ toString issue.Line ++ ":C" ++ toString issue.Column ++ ")\n"

/-- The variables of the issue loop of `main`, with the lines sent to standard error. -/
structure Scan where
  hasError : Bool
  hasWarning : Bool
  stderr : List Event
deriving DecidableEq, Repr

/-- One iteration of the issue loop. -/
def scanStep (debugFlag : Bool) (st : Scan) (issue : Issue) : Scan :=
  let st1 : Scan :=
    if issue.Severity = Severity.SeverityError then ⟨true, st.hasWarning, st.stderr⟩
    else ⟨st.hasError, true, st.stderr⟩
  if debugFlag then ⟨st1.hasError, st1.hasWarning, st1.stderr ++ [Event.stderrWrite (issueLine issue)]⟩
  else st1

/-- Section 4 of `main`: the guarded loop over `allIssues`. -/
def scanIssues (debugFlag : Bool) (allIssues : List Issue) : Scan :=
  if allIssues.length > 0 then allIssues.foldl (scanStep debugFlag) ⟨false, false, []⟩
  else ⟨false, false, []⟩

/-- The variable `outputPath` of `main`: `--output` when it is not empty, else `-o`. -/
def outputPath (F : Flags) : String :=
  if F.outputFlagLong ≠ "" then F.outputFlagLong else F.outputFlag

/-- The destination behind `outputWriter`. -/
def outputDest (F : Flags) : Dest :=
  if outputPath F ≠ "" then Dest.file (outputPath F) else Dest.stdout

/-- The final `fmt.Fprintln(outputWriter, cleanText)` and the return of `main`, where the
deferred `Close` calls run, last deferred first. -/
def writeStage (W : World) (dest : Dest) (cleanText : String) (deferred : List Event) : Result :=
  match W.writeOutput dest (cleanText ++ "\n") with
  | some err =>
    ⟨[Event.outputWrite dest (cleanText ++ "\n") (some err),
      Event.logFatal ("Fatal: could not write to output: " ++ err)], 1⟩
  | none => ⟨Event.outputWrite dest (cleanText ++ "\n") none :: deferred, 0⟩

/-- Section 5 of `main` after the two exits: choose the writer, create the file, write. -/
def outputStage (W : World) (F : Flags) (cleanText : String) (deferred : List Event) : Result :=
  if outputPath F ≠ "" then
    match W.createFile (outputPath F) with
    | some err =>
      ⟨[Event.createOutput (outputPath F) (some err),
        Event.logFatal ("Fatal: could not create output file " ++ outputPath F ++ ": " ++ err)], 1⟩
    | none =>
      let r := writeStage W (Dest.file (outputPath F)) cleanText
        (Event.closeFile (outputPath F) :: deferred)
      ⟨Event.createOutput (outputPath F) none :: r.trace, r.status⟩
  else
    writeStage W Dest.stdout cleanText deferred

/-- Sections 3 to 5 of `main`: what happens once the input text has been read. -/
def afterInput {Node : Type} (E : Engine Node) (W : World) (F : Flags)
    (inputText : String) (deferred : List Event) : Result :=
  let (cleanText, allIssues) := run E inputText
  let sc := scanIssues F.debugFlag allIssues
  let t := Event.callRun inputText :: sc.stderr
  if sc.hasError then ⟨t, 1⟩
  else if sc.hasWarning && F.strictFlag then ⟨t, 2⟩
  else
    let r := outputStage W F cleanText deferred
    ⟨t ++ r.trace, r.status⟩

/-- The function `main` of `main.go`. -/
def main {Node : Type} (E : Engine Node) (W : World) (F : Flags) : Result :=
  if F.versionFlag then
    ⟨[Event.stdoutWrite ("editml-clean version" ++ " " ++ AppVersion ++ "\n")], 0⟩
  else
    match inputHandling W F with
    | (t, none) => ⟨t, 1⟩
    | (t, some (inputText, deferred)) =>
      let r := afterInput E W F inputText deferred
      ⟨t ++ r.trace, r.status⟩

/-! ## Observations on a trace -/

/-- The call of `fmt.Fprintln(outputWriter, ...)` in an event: destination, bytes, error. -/
def asPayloadWrite : Event → Option (Dest × String × Option String)
  | Event.outputWrite d b e => some (d, b, e)
  | _ => none

/-- The calls of `fmt.Fprintln(outputWriter, ...)`: destination, bytes and error. -/
def payloadWrites (t : List Event) : List (Dest × String × Option String) :=
  t.filterMap asPayloadWrite

/-- The call of `os.Create` in an event: path and error. -/
def asCreateCall : Event → Option (String × Option String)
  | Event.createOutput p e => some (p, e)
  | _ => none

/-- The calls of `os.Create`: path and error. -/
def createCalls (t : List Event) : List (String × Option String) :=
  t.filterMap asCreateCall

/-- The bytes of a `fmt.Println` to standard output in an event. -/
def asStdoutPrint : Event → Option String
  | Event.stdoutWrite b => some b
  | _ => none

/-- The chunks written to standard output by `fmt.Println`. -/
def stdoutPrints (t : List Event) : List String :=
  t.filterMap asStdoutPrint

/-- The bytes of a `fmt.Fprintf(os.Stderr, ...)` in an event. -/
def asStderrLine : Event → Option String
  | Event.stderrWrite b => some b
  | _ => none

/-- The chunks written to standard error by `fmt.Fprintf(os.Stderr, ...)`. -/
def stderrLines (t : List Event) : List String :=
  t.filterMap asStderrLine

/-- The text of a call of `run` in an event. -/
def asRunCall : Event → Option String
  | Event.callRun s => some s
  | _ => none

/-- The texts `run` was called on. -/
def runCalls (t : List Event) : List String :=
  t.filterMap asRunCall

/-- Whether an event touches the output destination (standard output or an output file). -/
def isOutputEvent : Event → Bool
  | Event.stdoutWrite _ => true
  | Event.createOutput _ _ => true
  | Event.outputWrite _ _ _ => true
  | _ => false

/-- The events of a trace that touch the output destination. -/
def outputEvents (t : List Event) : List Event := t.filter isOutputEvent

/-- Whether an event opens or reads the input. -/
def isInputEvent : Event → Bool
  | Event.openInput _ _ => true
  | Event.readInput _ => true
  | _ => false

/-- Whether the output was written: some `Fprintln` on the output writer succeeded. -/
def outputWritten (r : Result) : Bool :=
  (payloadWrites r.trace).any (fun w => w.2.2.isNone)

/-- An engine that ignores its input: fixed clean text and fixed issues for each phase. -/
def constEngine (cleanText : String) (parseIssues transformIssues : List Issue) : Engine Unit :=
  ⟨fun _ => ([], parseIssues), fun _ => (cleanText, transformIssues)⟩

/-- A world without I/O failures, with the given bytes on standard input. -/
def okWorld (stdin : String) : World :=
  ⟨Except.ok stdin, fun _ => none, fun _ => Except.ok stdin, fun _ => none, fun _ _ => none⟩

/-- Flags with everything off and no positional argument. -/
def noFlags : Flags := ⟨false, "", "", false, false, []⟩

/-- The output side of the world does not fail for this run: `os.Create` succeeds on the
resolved path when there is one, and the `Fprintln` of the clean text succeeds. -/
def OutputOk (W : World) (F : Flags) (cleanText : String) : Prop :=
  (outputPath F ≠ "" → W.createFile (outputPath F) = none) ∧
    W.writeOutput (outputDest F) (cleanText ++ "\n") = none

/-- The issue has Error severity. -/
def isErr (i : Issue) : Bool := decide (i.Severity = Severity.SeverityError)

/-- The standard error events of the issue loop for a whole issue list. -/
def debugLines (debugFlag : Bool) (issues : List Issue) : List Event :=
  if debugFlag then issues.map (fun i => Event.stderrWrite (issueLine i)) else []

/-- The same flags with the debug flag set to `b`. -/
def setDebug (b : Bool) (F : Flags) : Flags :=
  ⟨F.versionFlag, F.outputFlag, F.outputFlagLong, b, F.strictFlag, F.args⟩

/-- The diagnostic line as the specification words it: `[<Label>] <Message> (L<Line>:C<Column>)`
and a newline, the label being `Error` or `Warning` after the severity. -/
def specIssueLine (i : Issue) : String :=
  "[" ++ (match i.Severity with
    | Severity.SeverityError => "Error"
    | Severity.SeverityWarning => "Warning") ++ "] " ++ i.Message ++
    " (L" ++ toString i.Line ++ ":C" ++ toString i.Column ++ ")\n"

/-- The specification's "exactly one trailing newline": the last character is a newline and
the one before it, if any, is not. A newline is one byte in UTF-8 and no other character's
encoding contains that byte, so this is the same statement on bytes. -/
def endsWithOneNewline (b : String) : Bool :=
  match b.data.reverse with
  | [] => false
  | c :: rest => c == '\n' && rest.head? != some '\n'

/-- Whether an event is a `fmt.Fprintf` to standard error, the diagnostic channel. -/
def isStderrWrite : Event → Bool
  | Event.stderrWrite _ => true
  | _ => false

/-- The trace without the diagnostic lines. -/
def withoutDiagnostics (t : List Event) : List Event := t.filter (fun e => !isStderrWrite e)

/-! ## Lemmas on the issue loop and on the stages of `main` -/

theorem foldl_scanStep (d : Bool) (l : List Issue) (st : Scan) :
    l.foldl (scanStep d) st =
      ⟨st.hasError || l.any isErr, st.hasWarning || l.any (fun i => !isErr i),
        st.stderr ++ debugLines d l⟩ := by
  induction l generalizing st with
  | nil => cases st; simp [debugLines]
  | cons i l ih =>
    rw [List.foldl_cons, ih]
    cases d <;> by_cases h : i.Severity = Severity.SeverityError <;>
      simp [scanStep, h, isErr, debugLines, Bool.or_assoc]

theorem scanIssues_eq (d : Bool) (l : List Issue) :
    scanIssues d l = ⟨l.any isErr, l.any (fun i => !isErr i), debugLines d l⟩ := by
  unfold scanIssues
  split
  · rw [foldl_scanStep]; simp
  · next h =>
    have hl : l = [] := by
      cases l with
      | nil => rfl
      | cons a t => simp at h
    subst hl
    simp [debugLines]

theorem any_isErr_iff (l : List Issue) :
    l.any isErr = true ↔ ∃ i ∈ l, i.Severity = Severity.SeverityError := by
  simp [List.any_eq_true, isErr]

theorem any_notErr_iff (l : List Issue) :
    l.any (fun i => !isErr i) = true ↔ ∃ i ∈ l, i.Severity = Severity.SeverityWarning := by
  simp only [List.any_eq_true, isErr]
  constructor
  · rintro ⟨i, hi, h⟩
    refine ⟨i, hi, ?_⟩
    cases hs : i.Severity with
    | SeverityWarning => rfl
    | SeverityError => simp [hs] at h
  · rintro ⟨i, hi, h⟩
    exact ⟨i, hi, by simp [h]⟩

theorem afterInput_eq {Node : Type} (E : Engine Node) (W : World) (F : Flags)
    (inputText : String) (deferred : List Event) :
    afterInput E W F inputText deferred =
      if (run E inputText).2.any isErr then
        ⟨Event.callRun inputText :: debugLines F.debugFlag (run E inputText).2, 1⟩
      else if (run E inputText).2.any (fun i => !isErr i) && F.strictFlag then
        ⟨Event.callRun inputText :: debugLines F.debugFlag (run E inputText).2, 2⟩
      else
        ⟨(Event.callRun inputText :: debugLines F.debugFlag (run E inputText).2) ++
            (outputStage W F (run E inputText).1 deferred).trace,
          (outputStage W F (run E inputText).1 deferred).status⟩ := by
  simp only [afterInput, scanIssues_eq]

theorem main_eq_of_input {Node : Type} (E : Engine Node) (W : World) (F : Flags)
    (t : List Event) (inputText : String) (deferred : List Event)
    (hv : F.versionFlag = false)
    (hin : inputHandling W F = (t, some (inputText, deferred))) :
    main E W F = ⟨t ++ (afterInput E W F inputText deferred).trace,
      (afterInput E W F inputText deferred).status⟩ := by
  simp [main, hv, hin]

theorem inputHandling_ok (W : World) (F : Flags) (t : List Event) (inputText : String)
    (deferred : List Event) (hin : inputHandling W F = (t, some (inputText, deferred))) :
    (t = [Event.readInput none] ∧ deferred = []) ∨
      ∃ f, t = [Event.openInput f none, Event.readInput none] ∧
        deferred = [Event.closeFile f] := by
  unfold inputHandling at hin
  split at hin
  · split at hin
    · simp at hin
    · simp at hin; left; exact ⟨hin.1.symm, by simp [hin.2.2]⟩
  · split at hin
    · simp at hin
    · split at hin
      · simp at hin
      · simp at hin; right; exact ⟨_, hin.1.symm, by simp [hin.2.2]⟩

theorem run_eq {Node : Type} (E : Engine Node) (inputText : String) :
    run E inputText =
      ((E.TransformCleanView (E.Parse inputText).1).1,
        (E.Parse inputText).2 ++ (E.TransformCleanView (E.Parse inputText).1).2) := by
  unfold run
  rcases hp : E.Parse inputText with ⟨nodes, parseIssues⟩
  rcases ht : E.TransformCleanView nodes with ⟨cleanText, transformIssues⟩
  simp [ht]

theorem outputEvents_debugLines (d : Bool) (l : List Issue) :
    outputEvents (debugLines d l) = [] := by
  cases d <;> simp [outputEvents, debugLines, List.filter_eq_nil_iff, isOutputEvent]

theorem payloadWrites_debugLines (d : Bool) (l : List Issue) :
    payloadWrites (debugLines d l) = [] := by
  cases d <;> simp [payloadWrites, debugLines, List.filterMap_eq_nil_iff, asPayloadWrite]

theorem createCalls_debugLines (d : Bool) (l : List Issue) :
    createCalls (debugLines d l) = [] := by
  cases d <;> simp [createCalls, debugLines, List.filterMap_eq_nil_iff, asCreateCall]

theorem stdoutPrints_debugLines (d : Bool) (l : List Issue) :
    stdoutPrints (debugLines d l) = [] := by
  cases d <;> simp [stdoutPrints, debugLines, List.filterMap_eq_nil_iff, asStdoutPrint]

theorem stderrLines_debugLines (d : Bool) (l : List Issue) :
    stderrLines (debugLines d l) = if d then l.map issueLine else [] := by
  cases d
  · simp [stderrLines, debugLines]
  · simp only [stderrLines, debugLines, if_true]
    induction l with
    | nil => rfl
    | cons i l ih => simpa [asStderrLine] using ih

theorem outputStage_ok (W : World) (F : Flags) (cleanText : String) (deferred : List Event)
    (h : OutputOk W F cleanText) :
    outputStage W F cleanText deferred =
      if outputPath F ≠ "" then
        ⟨Event.createOutput (outputPath F) none ::
          Event.outputWrite (Dest.file (outputPath F)) (cleanText ++ "\n") none ::
          Event.closeFile (outputPath F) :: deferred, 0⟩
      else ⟨Event.outputWrite Dest.stdout (cleanText ++ "\n") none :: deferred, 0⟩ := by
  obtain ⟨hc, hw⟩ := h
  unfold outputStage
  by_cases hp : outputPath F = ""
  · simp only [outputDest, hp, ne_eq, not_true_eq_false, if_false] at hw
    simp [hp, writeStage, hw]
  · simp only [outputDest, hp, ne_eq, not_false_eq_true, if_true] at hw
    simp [hp, writeStage, hw, hc hp]

theorem stderrLines_outputStage (W : World) (F : Flags) (cleanText : String)
    (deferred : List Event) (hd : stderrLines deferred = []) :
    stderrLines (outputStage W F cleanText deferred).trace = [] := by
  unfold stderrLines at hd
  unfold outputStage writeStage
  split
  · split
    · simp [stderrLines, asStderrLine]
    · split <;> simp [stderrLines, asStderrLine, hd]
  · split <;> simp [stderrLines, asStderrLine, hd]

theorem payloadWrites_outputStage (W : World) (F : Flags) (cleanText : String)
    (deferred : List Event) (hd : payloadWrites deferred = []) :
    ∀ w ∈ payloadWrites (outputStage W F cleanText deferred).trace,
      w.1 = outputDest F ∧ w.2.1 = cleanText ++ "\n" := by
  unfold payloadWrites at hd
  unfold outputStage writeStage outputDest
  split
  · split
    · simp [payloadWrites, asPayloadWrite]
    · split <;> simp [payloadWrites, asPayloadWrite, hd]
  · split <;> simp [payloadWrites, asPayloadWrite, hd]

theorem issueLine_eq_spec (i : Issue) : issueLine i = specIssueLine i := by
  unfold issueLine specIssueLine severityStr
  cases h : i.Severity <;> simp

theorem data_append_newline (c : String) : (c ++ "\n").data = c.data ++ ['\n'] := by
  simp [String.data_append]

theorem endsWithOneNewline_append (c : String) :
    endsWithOneNewline (c ++ "\n") = true ↔ c.data.getLast? ≠ some '\n' := by
  unfold endsWithOneNewline
  rw [data_append_newline]
  simp [List.head?_reverse]

theorem payloadWrites_inputHandling (W : World) (F : Flags) :
    payloadWrites (inputHandling W F).1 = [] := by
  unfold inputHandling
  split
  · split <;> simp [payloadWrites, asPayloadWrite]
  · split
    · simp [payloadWrites, asPayloadWrite]
    · split <;> simp [payloadWrites, asPayloadWrite]

theorem withoutDiagnostics_debugLines (d : Bool) (l : List Issue) :
    withoutDiagnostics (debugLines d l) = [] := by
  cases d <;> simp [withoutDiagnostics, debugLines, List.filter_eq_nil_iff, isStderrWrite]

theorem outputEvents_withoutDiagnostics (t : List Event) :
    outputEvents (withoutDiagnostics t) = outputEvents t := by
  unfold outputEvents withoutDiagnostics
  rw [List.filter_filter]
  congr 1
  funext e
  cases e <;> rfl

theorem payloadWrites_withoutDiagnostics (t : List Event) :
    payloadWrites (withoutDiagnostics t) = payloadWrites t := by
  unfold payloadWrites withoutDiagnostics
  induction t with
  | nil => rfl
  | cons e t ih => cases e <;> simp_all [List.filter_cons, isStderrWrite, asPayloadWrite]

theorem main_setDebug {Node : Type} (E : Engine Node) (W : World) (F : Flags) (b : Bool) :
    (main E W (setDebug b F)).status = (main E W (setDebug false F)).status ∧
      withoutDiagnostics (main E W (setDebug b F)).trace =
        withoutDiagnostics (main E W (setDebug false F)).trace := by
  obtain ⟨v, o, ol, dbg, st, args⟩ := F
  have hin : inputHandling W ⟨v, o, ol, b, st, args⟩ =
      inputHandling W ⟨v, o, ol, false, st, args⟩ := rfl
  have hout : ∀ c d, outputStage W ⟨v, o, ol, b, st, args⟩ c d =
      outputStage W ⟨v, o, ol, false, st, args⟩ c d := fun _ _ => rfl
  have hdl := withoutDiagnostics_debugLines
  unfold withoutDiagnostics at hdl ⊢
  unfold main
  simp only [setDebug]
  cases v
  · simp only [Bool.false_eq_true, if_false]
    rw [hin]
    rcases inputHandling W ⟨false, o, ol, false, st, args⟩ with
      ⟨t, _ | ⟨inputText, deferred⟩⟩
    · exact ⟨rfl, rfl⟩
    · simp only [afterInput_eq, hout]
      split
      · simp [hdl, List.filter_cons]
      · split <;> simp [hdl, List.filter_cons]
  · exact ⟨rfl, rfl⟩

/-! ## The claims -/

/-- C1: when the merged issue sequence returned by `run` holds an issue of Error severity,
at any position and for all flags and output paths, `main` exits with status 1 and no event
touches the output destination: nothing is printed to standard output, `os.Create` is not
called and nothing is written through the output writer. -/
theorem error_exits_one_without_output {Node : Type} (E : Engine Node) (W : World) (F : Flags)
    (t : List Event) (inputText : String) (deferred : List Event)
    (hv : F.versionFlag = false)
    (hin : inputHandling W F = (t, some (inputText, deferred)))
    (herr : ∃ i ∈ (run E inputText).2, i.Severity = Severity.SeverityError) :
    (main E W F).status = 1 ∧ outputEvents (main E W F).trace = [] ∧
      payloadWrites (main E W F).trace = [] ∧ createCalls (main E W F).trace = [] ∧
      stdoutPrints (main E W F).trace = [] := by
  rw [main_eq_of_input E W F t inputText deferred hv hin, afterInput_eq]
  rw [if_pos ((any_isErr_iff _).2 herr)]
  have h1 := outputEvents_debugLines F.debugFlag (run E inputText).2
  have h2 := payloadWrites_debugLines F.debugFlag (run E inputText).2
  have h3 := createCalls_debugLines F.debugFlag (run E inputText).2
  have h4 := stdoutPrints_debugLines F.debugFlag (run E inputText).2
  simp only [outputEvents, payloadWrites, createCalls, stdoutPrints] at h1 h2 h3 h4
  rcases inputHandling_ok W F t inputText deferred hin with ⟨rfl, rfl⟩ | ⟨f, rfl, rfl⟩ <;>
    simp [outputEvents, payloadWrites, createCalls, stdoutPrints, isOutputEvent,
      asPayloadWrite, asCreateCall, asStdoutPrint, h1, h2, h3, h4]

/-- An Error in the transform phase after a Warning in the parse phase, with `--strict`,
`--debug` and both output paths set: exit status 1 and the output destination untouched. -/
theorem error_exits_one_without_output_witness :
    (∃ i ∈ (run (constEngine "x" [⟨Severity.SeverityWarning, "w", 1, 1⟩]
        [⟨Severity.SeverityError, "e", 2, 3⟩]) "in").2, i.Severity = Severity.SeverityError) ∧
    (main (constEngine "x" [⟨Severity.SeverityWarning, "w", 1, 1⟩]
        [⟨Severity.SeverityError, "e", 2, 3⟩]) (okWorld "in")
        ⟨false, "a.txt", "b.txt", true, true, []⟩).status = 1 ∧
    outputEvents (main (constEngine "x" [⟨Severity.SeverityWarning, "w", 1, 1⟩]
        [⟨Severity.SeverityError, "e", 2, 3⟩]) (okWorld "in")
        ⟨false, "a.txt", "b.txt", true, true, []⟩).trace = [] :=
  have herr : ∃ i ∈ (run (constEngine "x" [⟨Severity.SeverityWarning, "w", 1, 1⟩]
        [⟨Severity.SeverityError, "e", 2, 3⟩]) "in").2, i.Severity = Severity.SeverityError :=
    ⟨⟨Severity.SeverityError, "e", 2, 3⟩, by decide, rfl⟩
  have h := error_exits_one_without_output
    (constEngine "x" [⟨Severity.SeverityWarning, "w", 1, 1⟩] [⟨Severity.SeverityError, "e", 2, 3⟩])
    (okWorld "in") ⟨false, "a.txt", "b.txt", true, true, []⟩
    [Event.readInput none] "in" [] rfl rfl herr
  ⟨herr, h.1, h.2.1⟩

/-- C4: `run` returns the clean text of the transform phase applied to the parse phase's
nodes, whatever the parse issues are, and as issues the parse issues followed by the
transform issues: the length is the sum of the two lengths, the parse issues are its
first part and the transform issues the rest, and every issue occurs as many times as in
the two phases together. -/
theorem run_merges_phase_issues {Node : Type} (E : Engine Node) (inputText : String) :
    run E inputText =
        ((E.TransformCleanView (E.Parse inputText).1).1,
          (E.Parse inputText).2 ++ (E.TransformCleanView (E.Parse inputText).1).2) ∧
      (run E inputText).2.length =
        (E.Parse inputText).2.length + (E.TransformCleanView (E.Parse inputText).1).2.length ∧
      (run E inputText).2.take (E.Parse inputText).2.length = (E.Parse inputText).2 ∧
      (run E inputText).2.drop (E.Parse inputText).2.length =
        (E.TransformCleanView (E.Parse inputText).1).2 ∧
      ∀ i : Issue, (run E inputText).2.count i =
        (E.Parse inputText).2.count i + (E.TransformCleanView (E.Parse inputText).1).2.count i := by
  rw [run_eq]
  simp

/-- C10: with the version flag set, whatever the other flags, the arguments, the engine
and the world are, `main` does one thing, print `editml-clean version 1.0.0` and a newline
on standard output, and exits with status 0: the input is not opened or read, `run` is not
called, no issue line is emitted, no output file is created and nothing is written through
the output writer. -/
theorem version_short_circuit {Node : Type} (E : Engine Node) (W : World) (F : Flags)
    (hv : F.versionFlag = true) :
    main E W F = ⟨[Event.stdoutWrite "editml-clean version 1.0.0\n"], 0⟩ ∧
      (main E W F).status = 0 ∧
      (main E W F).trace.filter isInputEvent = [] ∧
      runCalls (main E W F).trace = [] ∧
      stderrLines (main E W F).trace = [] ∧
      createCalls (main E W F).trace = [] ∧
      payloadWrites (main E W F).trace = [] := by
  have h : main E W F = ⟨[Event.stdoutWrite "editml-clean version 1.0.0\n"], 0⟩ := by
    simp only [main, hv, if_true]
    rfl
  rw [h]
  simp [isInputEvent, runCalls, stderrLines, createCalls, payloadWrites, asRunCall,
    asStderrLine, asCreateCall, asPayloadWrite]

/-- With `--version`, `--debug`, `--strict`, both output paths, a positional argument, an
engine that reports an Error and a world where every input read fails: the version line
and status 0. -/
theorem version_short_circuit_witness :
    main (constEngine "x" [⟨Severity.SeverityError, "e", 1, 1⟩] [])
        ⟨Except.error "closed", fun _ => some "no such file", fun _ => Except.error "bad",
          fun _ => some "denied", fun _ _ => some "denied"⟩
        ⟨true, "a.txt", "b.txt", true, true, ["missing.editml"]⟩ =
      ⟨[Event.stdoutWrite "editml-clean version 1.0.0\n"], 0⟩ :=
  (version_short_circuit (constEngine "x" [⟨Severity.SeverityError, "e", 1, 1⟩] [])
    ⟨Except.error "closed", fun _ => some "no such file", fun _ => Except.error "bad",
      fun _ => some "denied", fun _ _ => some "denied"⟩
    ⟨true, "a.txt", "b.txt", true, true, ["missing.editml"]⟩ rfl).1

/-- C2: when the merged issue sequence holds a Warning and no Error, `main` exits with
status 2 when strict is on, and nothing touches the output destination; when strict is off
(and creating and writing the output do not fail) it exits with status 0 after one write of
the clean text followed by a newline to the output destination. -/
theorem warnings_only_exit_status {Node : Type} (E : Engine Node) (W : World) (F : Flags)
    (t : List Event) (inputText : String) (deferred : List Event)
    (hv : F.versionFlag = false)
    (hin : inputHandling W F = (t, some (inputText, deferred)))
    (hwarn : ∃ i ∈ (run E inputText).2, i.Severity = Severity.SeverityWarning)
    (hnoerr : ∀ i ∈ (run E inputText).2, i.Severity ≠ Severity.SeverityError)
    (hok : F.strictFlag = false → OutputOk W F (run E inputText).1) :
    (main E W F).status = (if F.strictFlag then 2 else 0) ∧
      payloadWrites (main E W F).trace =
        (if F.strictFlag then []
          else [(outputDest F, (run E inputText).1 ++ "\n", none)]) ∧
      (F.strictFlag = true → outputEvents (main E W F).trace = []) := by
  rw [main_eq_of_input E W F t inputText deferred hv hin, afterInput_eq]
  have he : (run E inputText).2.any isErr = false := by
    rw [Bool.eq_false_iff, ne_eq, any_isErr_iff]
    rintro ⟨i, hi, h⟩
    exact hnoerr i hi h
  have hw := (any_notErr_iff _).2 hwarn
  have h1 := outputEvents_debugLines F.debugFlag (run E inputText).2
  have h2 := payloadWrites_debugLines F.debugFlag (run E inputText).2
  simp only [outputEvents, payloadWrites] at h1 h2
  cases hs : F.strictFlag
  · have ho := outputStage_ok W F (run E inputText).1 deferred (hok hs)
    rcases inputHandling_ok W F t inputText deferred hin with ⟨rfl, rfl⟩ | ⟨f, rfl, rfl⟩ <;>
      by_cases hp : outputPath F = "" <;>
      simp [he, hw, ho, hp, outputDest, payloadWrites, asPayloadWrite, h2]
  · rcases inputHandling_ok W F t inputText deferred hin with ⟨rfl, rfl⟩ | ⟨f, rfl, rfl⟩ <;>
      simp [he, hw, outputEvents, payloadWrites, isOutputEvent, asPayloadWrite, h1, h2]

/-- One Warning and no Error, read from standard input: with `--strict` status 2 and nothing
written, without it status 0 and the clean text and a newline on standard output. -/
theorem warnings_only_exit_status_witness :
    ((main (constEngine "Hello" [⟨Severity.SeverityWarning, "w", 1, 1⟩] []) (okWorld "in")
        ⟨false, "", "", false, true, []⟩).status = 2 ∧
      payloadWrites (main (constEngine "Hello" [⟨Severity.SeverityWarning, "w", 1, 1⟩] [])
        (okWorld "in") ⟨false, "", "", false, true, []⟩).trace = []) ∧
    ((main (constEngine "Hello" [⟨Severity.SeverityWarning, "w", 1, 1⟩] []) (okWorld "in")
        ⟨false, "", "", false, false, []⟩).status = 0 ∧
      payloadWrites (main (constEngine "Hello" [⟨Severity.SeverityWarning, "w", 1, 1⟩] [])
        (okWorld "in") ⟨false, "", "", false, false, []⟩).trace =
          [(Dest.stdout, "Hello\n", none)]) :=
  have h1 := warnings_only_exit_status
    (constEngine "Hello" [⟨Severity.SeverityWarning, "w", 1, 1⟩] []) (okWorld "in")
    ⟨false, "", "", false, true, []⟩ [Event.readInput none] "in" [] rfl rfl
    ⟨⟨Severity.SeverityWarning, "w", 1, 1⟩, by decide, rfl⟩ (by decide)
    (fun h => absurd h (by decide))
  have h2 := warnings_only_exit_status
    (constEngine "Hello" [⟨Severity.SeverityWarning, "w", 1, 1⟩] []) (okWorld "in")
    ⟨false, "", "", false, false, []⟩ [Event.readInput none] "in" [] rfl rfl
    ⟨⟨Severity.SeverityWarning, "w", 1, 1⟩, by decide, rfl⟩ (by decide)
    (fun _ => ⟨fun _ => rfl, rfl⟩)
  ⟨⟨h1.1, h1.2.1⟩, ⟨h2.1, h2.2.1⟩⟩

/-- C5: when the engine reports no issue in either phase (and creating and writing the
output do not fail), for all strict and debug settings `main` exits with status 0 and the
only bytes that reach the output destination are one write of the clean text returned by
`run` followed by one newline; nothing else is printed on standard output and no issue
line is emitted. -/
theorem no_issues_output {Node : Type} (E : Engine Node) (W : World) (F : Flags)
    (t : List Event) (inputText : String) (deferred : List Event)
    (hv : F.versionFlag = false)
    (hin : inputHandling W F = (t, some (inputText, deferred)))
    (hparse : (E.Parse inputText).2 = [])
    (htrans : (E.TransformCleanView (E.Parse inputText).1).2 = [])
    (hok : OutputOk W F (run E inputText).1) :
    (main E W F).status = 0 ∧
      payloadWrites (main E W F).trace = [(outputDest F, (run E inputText).1 ++ "\n", none)] ∧
      stdoutPrints (main E W F).trace = [] ∧
      stderrLines (main E W F).trace = [] := by
  have hi : (run E inputText).2 = [] := by rw [run_eq]; simp [hparse, htrans]
  rw [main_eq_of_input E W F t inputText deferred hv hin, afterInput_eq,
    outputStage_ok W F (run E inputText).1 deferred hok, hi]
  rcases inputHandling_ok W F t inputText deferred hin with ⟨rfl, rfl⟩ | ⟨f, rfl, rfl⟩ <;>
    by_cases hp : outputPath F = "" <;>
    cases hd : F.debugFlag <;>
    simp [hp, outputDest, payloadWrites, stdoutPrints, stderrLines, asPayloadWrite,
      asStdoutPrint, asStderrLine, debugLines]

/-- The scenario of the specification: clean text `Hello world.` gives the output
`Hello world.` and a newline with status 0, and an empty clean text gives a single newline. -/
theorem no_issues_output_witness :
    ((main (constEngine "Hello world." [] []) (okWorld "Hello{+ world+}.")
        ⟨false, "", "", true, true, []⟩).status = 0 ∧
      payloadWrites (main (constEngine "Hello world." [] []) (okWorld "Hello{+ world+}.")
        ⟨false, "", "", true, true, []⟩).trace = [(Dest.stdout, "Hello world.\n", none)]) ∧
    ((main (constEngine "" [] []) (okWorld "") noFlags).status = 0 ∧
      payloadWrites (main (constEngine "" [] []) (okWorld "") noFlags).trace =
        [(Dest.stdout, "\n", none)]) :=
  have h1 := no_issues_output (constEngine "Hello world." [] []) (okWorld "Hello{+ world+}.")
    ⟨false, "", "", true, true, []⟩ [Event.readInput none] "Hello{+ world+}." [] rfl rfl rfl rfl
    ⟨fun _ => rfl, rfl⟩
  have h2 := no_issues_output (constEngine "" [] []) (okWorld "") noFlags
    [Event.readInput none] "" [] rfl rfl rfl rfl ⟨fun _ => rfl, rfl⟩
  ⟨⟨h1.1, h1.2.1⟩, ⟨h2.1, h2.2.1⟩⟩

/-- C7: two runs of `main` on the same engine, world and flags that differ in the debug flag
only end with the same exit status and have the same events on the output destination
(standard output prints, `os.Create` calls, writes through the output writer with their
bytes and destination); the two traces are equal once the diagnostic lines are removed. -/
theorem debug_is_observational {Node : Type} (E : Engine Node) (W : World) (F : Flags)
    (b1 b2 : Bool) :
    (main E W (setDebug b1 F)).status = (main E W (setDebug b2 F)).status ∧
      outputEvents (main E W (setDebug b1 F)).trace =
        outputEvents (main E W (setDebug b2 F)).trace ∧
      payloadWrites (main E W (setDebug b1 F)).trace =
        payloadWrites (main E W (setDebug b2 F)).trace ∧
      withoutDiagnostics (main E W (setDebug b1 F)).trace =
        withoutDiagnostics (main E W (setDebug b2 F)).trace := by
  have h1 := main_setDebug E W F b1
  have h2 := main_setDebug E W F b2
  have hw : withoutDiagnostics (main E W (setDebug b1 F)).trace =
      withoutDiagnostics (main E W (setDebug b2 F)).trace := h1.2.trans h2.2.symm
  refine ⟨h1.1.trans h2.1.symm, ?_, ?_, hw⟩
  · rw [← outputEvents_withoutDiagnostics, hw, outputEvents_withoutDiagnostics]
  · rw [← payloadWrites_withoutDiagnostics, hw, payloadWrites_withoutDiagnostics]

/-- C8: with the debug flag on, the lines `main` sends to standard error with `Fprintf` are
one line per issue of the merged sequence, in its order, each
`[<Label>] <Message> (L<Line>:C<Column>)` and a newline with the label `Error` or `Warning`
after the severity, whatever the exit status is; with the debug flag off there is none. -/
theorem debug_lines {Node : Type} (E : Engine Node) (W : World) (F : Flags)
    (t : List Event) (inputText : String) (deferred : List Event)
    (hv : F.versionFlag = false)
    (hin : inputHandling W F = (t, some (inputText, deferred))) :
    stderrLines (main E W F).trace =
      (if F.debugFlag then (run E inputText).2.map specIssueLine else []) := by
  rw [main_eq_of_input E W F t inputText deferred hv hin, afterInput_eq]
  have hl := stderrLines_debugLines F.debugFlag (run E inputText).2
  have hmap : (run E inputText).2.map issueLine = (run E inputText).2.map specIssueLine :=
    List.map_congr_left (fun i _ => issueLine_eq_spec i)
  rw [hmap] at hl
  have hd : stderrLines deferred = [] := by
    rcases inputHandling_ok W F t inputText deferred hin with ⟨_, rfl⟩ | ⟨f, _, rfl⟩ <;>
      simp [stderrLines, asStderrLine]
  have ho := stderrLines_outputStage W F (run E inputText).1 deferred hd
  have ht : stderrLines t = [] := by
    rcases inputHandling_ok W F t inputText deferred hin with ⟨rfl, _⟩ | ⟨f, rfl, _⟩ <;>
      simp [stderrLines, asStderrLine]
  unfold stderrLines at hl ho ht ⊢
  split
  · simp [ht, hl, asStderrLine]
  · split <;> simp [ht, hl, ho, asStderrLine]

/-- A Warning from the parse phase and an Error from the transform phase with `--debug`:
the run ends with status 1, no output, and both lines are on standard error, in order. -/
theorem debug_lines_witness :
    stderrLines (main (constEngine "x" [⟨Severity.SeverityWarning, "odd nesting", 3, 14⟩]
        [⟨Severity.SeverityError, "unresolved move", 7, 2⟩]) (okWorld "in")
        ⟨false, "", "", true, false, []⟩).trace =
      ["[Warning] odd nesting (L3:C14)\n", "[Error] unresolved move (L7:C2)\n"] ∧
    (main (constEngine "x" [⟨Severity.SeverityWarning, "odd nesting", 3, 14⟩]
        [⟨Severity.SeverityError, "unresolved move", 7, 2⟩]) (okWorld "in")
        ⟨false, "", "", true, false, []⟩).status = 1 :=
  ⟨(debug_lines (constEngine "x" [⟨Severity.SeverityWarning, "odd nesting", 3, 14⟩]
      [⟨Severity.SeverityError, "unresolved move", 7, 2⟩]) (okWorld "in")
      ⟨false, "", "", true, false, []⟩ [Event.readInput none] "in" [] rfl rfl).trans (by decide),
    by decide⟩

/-- C3, the claim as stated fails: with `--strict` and a merged sequence of one Warning and
no Error, in a world without I/O failure, `main` gets past input reading, calls `run`,
writes nothing and exits with status 2. -/
theorem strict_warning_blocks_output :
    (run (constEngine "Hello" [⟨Severity.SeverityWarning, "w", 1, 1⟩] []) "in").2 =
        [⟨Severity.SeverityWarning, "w", 1, 1⟩] ∧
      (run (constEngine "Hello" [⟨Severity.SeverityWarning, "w", 1, 1⟩] []) "in").2.any isErr
        = false ∧
      main (constEngine "Hello" [⟨Severity.SeverityWarning, "w", 1, 1⟩] []) (okWorld "in")
        ⟨false, "", "", false, true, []⟩ = ⟨[Event.readInput none, Event.callRun "in"], 2⟩ ∧
      outputWritten (main (constEngine "Hello" [⟨Severity.SeverityWarning, "w", 1, 1⟩] [])
        (okWorld "in") ⟨false, "", "", false, true, []⟩) = false := by
  decide

/-- C3 as amended: for a run of `main` that gets past input reading and whose output side
does not fail, for all strict and debug settings, the output is written if and only if no
issue of the merged sequence has Error severity and it is not the case that strict is on
and some issue has Warning severity. -/
theorem output_written_iff {Node : Type} (E : Engine Node) (W : World) (F : Flags)
    (t : List Event) (inputText : String) (deferred : List Event)
    (hv : F.versionFlag = false)
    (hin : inputHandling W F = (t, some (inputText, deferred)))
    (hok : OutputOk W F (run E inputText).1) :
    outputWritten (main E W F) = true ↔
      (∀ i ∈ (run E inputText).2, i.Severity ≠ Severity.SeverityError) ∧
        ¬ (F.strictFlag = true ∧
          ∃ i ∈ (run E inputText).2, i.Severity = Severity.SeverityWarning) := by
  have h1 : (∀ i ∈ (run E inputText).2, i.Severity ≠ Severity.SeverityError) ↔
      (run E inputText).2.any isErr = false := by
    rw [Bool.eq_false_iff, ne_eq, any_isErr_iff]
    constructor
    · rintro h ⟨i, hi, he⟩
      exact h i hi he
    · intro h i hi he
      exact h ⟨i, hi, he⟩
  rw [h1, ← any_notErr_iff, main_eq_of_input E W F t inputText deferred hv hin, afterInput_eq,
    outputStage_ok W F (run E inputText).1 deferred hok]
  have h2 := payloadWrites_debugLines F.debugFlag (run E inputText).2
  unfold payloadWrites at h2
  cases he : (run E inputText).2.any isErr <;>
    cases hw : (run E inputText).2.any (fun i => !isErr i) <;>
    cases hs : F.strictFlag <;>
    rcases inputHandling_ok W F t inputText deferred hin with ⟨rfl, rfl⟩ | ⟨f, rfl, rfl⟩ <;>
    by_cases hp : outputPath F = "" <;>
    simp [outputWritten, payloadWrites, asPayloadWrite, h2, hp]

/-- A Warning without `--strict` is written, the same Warning with `--strict` is not. -/
theorem output_written_iff_witness :
    outputWritten (main (constEngine "Hello" [⟨Severity.SeverityWarning, "w", 1, 1⟩] [])
        (okWorld "in") ⟨false, "out.txt", "", false, false, []⟩) = true ∧
      outputWritten (main (constEngine "Hello" [⟨Severity.SeverityWarning, "w", 1, 1⟩] [])
        (okWorld "in") ⟨false, "out.txt", "", false, true, []⟩) = false :=
  ⟨(output_written_iff (constEngine "Hello" [⟨Severity.SeverityWarning, "w", 1, 1⟩] [])
      (okWorld "in") ⟨false, "out.txt", "", false, false, []⟩ [Event.readInput none] "in" []
      rfl rfl ⟨fun _ => rfl, rfl⟩).2 ⟨by decide, by decide⟩,
    Bool.eq_false_iff.2 (fun h =>
      ((output_written_iff (constEngine "Hello" [⟨Severity.SeverityWarning, "w", 1, 1⟩] [])
        (okWorld "in") ⟨false, "out.txt", "", false, true, []⟩ [Event.readInput none] "in" []
        rfl rfl ⟨fun _ => rfl, rfl⟩).1 h).2
        ⟨rfl, ⟨Severity.SeverityWarning, "w", 1, 1⟩, by decide, rfl⟩)⟩

/-- C6, the claim as stated fails: for a clean text that ends with a newline the written
bytes end with two newlines. -/
theorem newline_clean_text_doubles :
    main (constEngine "a\n" [] []) (okWorld "a\n") noFlags =
        ⟨[Event.readInput none, Event.callRun "a\n",
          Event.outputWrite Dest.stdout "a\n\n" none], 0⟩ ∧
      payloadWrites (main (constEngine "a\n" [] []) (okWorld "a\n") noFlags).trace =
        [(Dest.stdout, "a\n\n", none)] ∧
      "a\n\n".data = ['a', '\n', '\n'] ∧
      endsWithOneNewline "a\n\n" = false := by
  decide

/-- C6 as amended: whatever `main` writes through the output writer is the clean text of
`run` followed by one newline, so its last character is a newline; the written bytes end
with exactly one newline if and only if the clean text does not itself end with a newline
(the empty clean text included). -/
theorem written_bytes_end_with_newline {Node : Type} (E : Engine Node) (W : World) (F : Flags)
    (d : Dest) (b : String) (e : Option String)
    (hmem : (d, b, e) ∈ payloadWrites (main E W F).trace) :
    ∃ t inputText deferred, inputHandling W F = (t, some (inputText, deferred)) ∧
      b = (run E inputText).1 ++ "\n" ∧
      b.data.getLast? = some '\n' ∧
      (endsWithOneNewline b = true ↔ (run E inputText).1.data.getLast? ≠ some '\n') := by
  cases hv : F.versionFlag
  · have hpi := payloadWrites_inputHandling W F
    rcases hin : inputHandling W F with ⟨t, _ | ⟨inputText, deferred⟩⟩
    · rw [hin] at hpi
      simp [main, hv, hin] at hmem
      simp at hpi
      rw [hpi] at hmem
      simp at hmem
    · refine ⟨t, inputText, deferred, rfl, ?_⟩
      rw [hin] at hpi
      have hd : payloadWrites deferred = [] := by
        rcases inputHandling_ok W F t inputText deferred hin with ⟨_, rfl⟩ | ⟨f, _, rfl⟩ <;>
          simp [payloadWrites, asPayloadWrite]
      have hdl := payloadWrites_debugLines F.debugFlag (run E inputText).2
      have hos := payloadWrites_outputStage W F (run E inputText).1 deferred hd
      rw [main_eq_of_input E W F t inputText deferred hv hin, afterInput_eq] at hmem
      simp only at hpi
      unfold payloadWrites at hpi hdl hos hmem
      have hb : b = (run E inputText).1 ++ "\n" := by
        split at hmem
        · simp [hpi, hdl, asPayloadWrite] at hmem
        · split at hmem
          · simp [hpi, hdl, asPayloadWrite] at hmem
          · simp only [List.filterMap_append, List.filterMap_cons, hpi, hdl, asPayloadWrite,
              List.nil_append] at hmem
            exact (hos _ hmem).2
      subst hb
      refine ⟨rfl, ?_, endsWithOneNewline_append _⟩
      rw [data_append_newline]
      simp
  · simp [main, hv, payloadWrites, asPayloadWrite] at hmem

/-- Clean text `Hello world.`: the write is `Hello world.` and one newline, which ends with
exactly one newline. -/
theorem written_bytes_end_with_newline_witness :
    (Dest.stdout, "Hello world.\n", (none : Option String)) ∈
        payloadWrites (main (constEngine "Hello world." [] []) (okWorld "in") noFlags).trace ∧
      ∃ t inputText deferred,
        inputHandling (okWorld "in") noFlags = (t, some (inputText, deferred)) ∧
        "Hello world.\n" = (run (constEngine "Hello world." [] []) inputText).1 ++ "\n" ∧
        "Hello world.\n".data.getLast? = some '\n' ∧
        (endsWithOneNewline "Hello world.\n" = true ↔
          (run (constEngine "Hello world." [] []) inputText).1.data.getLast? ≠ some '\n') :=
  ⟨by decide,
    written_bytes_end_with_newline (constEngine "Hello world." [] []) (okWorld "in") noFlags
      Dest.stdout "Hello world.\n" none (by decide)⟩

/-- C9: when `main` reaches the output stage (no Error, no Warning under strict) and the
output side does not fail, the clean text and a newline are written once, to the file named
by `--output` when that value is not empty, else to the file named by `-o` when that value
is not empty, else to standard output; that file is the only one created, and with both
values empty no file is created. -/
theorem output_path_precedence {Node : Type} (E : Engine Node) (W : World) (F : Flags)
    (t : List Event) (inputText : String) (deferred : List Event)
    (hv : F.versionFlag = false)
    (hin : inputHandling W F = (t, some (inputText, deferred)))
    (hnoerr : ∀ i ∈ (run E inputText).2, i.Severity ≠ Severity.SeverityError)
    (hns : ¬ (F.strictFlag = true ∧
      ∃ i ∈ (run E inputText).2, i.Severity = Severity.SeverityWarning))
    (hok : OutputOk W F (run E inputText).1) :
    (main E W F).status = 0 ∧
      createCalls (main E W F).trace =
        (if F.outputFlagLong ≠ "" then [(F.outputFlagLong, none)]
          else if F.outputFlag ≠ "" then [(F.outputFlag, none)] else []) ∧
      payloadWrites (main E W F).trace =
        [((if F.outputFlagLong ≠ "" then Dest.file F.outputFlagLong
            else if F.outputFlag ≠ "" then Dest.file F.outputFlag else Dest.stdout),
          (run E inputText).1 ++ "\n", none)] ∧
      stdoutPrints (main E W F).trace = [] := by
  have he : (run E inputText).2.any isErr = false := by
    rw [Bool.eq_false_iff, ne_eq, any_isErr_iff]
    rintro ⟨i, hi, h⟩
    exact hnoerr i hi h
  have hws : ((run E inputText).2.any (fun i => !isErr i) && F.strictFlag) = false := by
    rw [Bool.eq_false_iff, ne_eq, Bool.and_eq_true, any_notErr_iff]
    exact fun h => hns ⟨h.2, h.1⟩
  rw [main_eq_of_input E W F t inputText deferred hv hin, afterInput_eq,
    outputStage_ok W F (run E inputText).1 deferred hok, he, hws]
  have h2 := payloadWrites_debugLines F.debugFlag (run E inputText).2
  have h3 := createCalls_debugLines F.debugFlag (run E inputText).2
  have h4 := stdoutPrints_debugLines F.debugFlag (run E inputText).2
  unfold payloadWrites at h2
  unfold createCalls at h3
  unfold stdoutPrints at h4
  rcases inputHandling_ok W F t inputText deferred hin with ⟨rfl, rfl⟩ | ⟨f, rfl, rfl⟩ <;>
    by_cases hl : F.outputFlagLong = "" <;>
    by_cases ho : F.outputFlag = "" <;>
    simp [outputPath, hl, ho, payloadWrites, createCalls, stdoutPrints, asPayloadWrite,
      asCreateCall, asStdoutPrint, h2, h3, h4]

/-- Both values given: the file of `--output` is created and written, not that of `-o`;
only `-o` given: its file; neither: standard output and no file. -/
theorem output_path_precedence_witness :
    (createCalls (main (constEngine "Hello" [] []) (okWorld "in")
        ⟨false, "short.txt", "long.txt", false, false, ["somefile.editml"]⟩).trace =
          [("long.txt", none)] ∧
      payloadWrites (main (constEngine "Hello" [] []) (okWorld "in")
        ⟨false, "short.txt", "long.txt", false, false, ["somefile.editml"]⟩).trace =
          [(Dest.file "long.txt", "Hello\n", none)]) ∧
    (createCalls (main (constEngine "Hello" [] []) (okWorld "in")
        ⟨false, "out.txt", "", false, false, ["somefile.editml"]⟩).trace =
          [("out.txt", none)] ∧
      payloadWrites (main (constEngine "Hello" [] []) (okWorld "in")
        ⟨false, "out.txt", "", false, false, ["somefile.editml"]⟩).trace =
          [(Dest.file "out.txt", "Hello\n", none)]) ∧
    (createCalls (main (constEngine "Hello" [] []) (okWorld "in") noFlags).trace = [] ∧
      payloadWrites (main (constEngine "Hello" [] []) (okWorld "in") noFlags).trace =
          [(Dest.stdout, "Hello\n", none)]) :=
  have h1 := output_path_precedence (constEngine "Hello" [] []) (okWorld "in")
    ⟨false, "short.txt", "long.txt", false, false, ["somefile.editml"]⟩
    [Event.openInput "somefile.editml" none, Event.readInput none] "in"
    [Event.closeFile "somefile.editml"] rfl rfl (by decide) (by decide) ⟨fun _ => rfl, rfl⟩
  have h2 := output_path_precedence (constEngine "Hello" [] []) (okWorld "in")
    ⟨false, "out.txt", "", false, false, ["somefile.editml"]⟩
    [Event.openInput "somefile.editml" none, Event.readInput none] "in"
    [Event.closeFile "somefile.editml"] rfl rfl (by decide) (by decide) ⟨fun _ => rfl, rfl⟩
  have h3 := output_path_precedence (constEngine "Hello" [] []) (okWorld "in") noFlags
    [Event.readInput none] "in" [] rfl rfl (by decide) (by decide) ⟨fun _ => rfl, rfl⟩
  ⟨⟨h1.2.1, h1.2.2.1⟩, ⟨h2.2.1, h2.2.2.1⟩, ⟨h3.2.1, h3.2.2.1⟩⟩

end EditmlClean
